import Mathlib

/-!
Shallow embedding of the IMAP synchronization engine (`ImapSyncService`)
of the ReachInbox email aggregator, together with proofs about the
message-normalization pipeline, the fetch batcher, the idle supervisor
and the connection lifecycle manager.

The embedding follows the TypeScript source: pure computations become
Lean functions, JavaScript truthiness on strings/options is modelled
explicitly, the per-connection and per-manager mutable state becomes
explicit state-passing, and the external libraries (`Imap.parseHeader`,
`simpleParser`) are modelled by quantifying over their outputs.
-/

namespace ImapSync

/-- Model of a date value: either parsed from a header string or the
current wall-clock time (`new Date()` with no argument). -/
inductive DateVal where
  | now : DateVal
  | parsed : String → DateVal
deriving DecidableEq, Repr

/-- Attachment metadata kept by the normalizer (filename, content type,
byte size; payload discarded). -/
structure Attachment where
  filename : String
  contentType : String
  size : Nat
deriving DecidableEq, Repr

/-- The canonical message record (`EmailDocument` in `models/email.ts`). -/
structure EmailDocument where
  id : String
  accountId : String
  folder : String
  subject : String
  body : String
  bodyHtml : Option String
  «from» : String
  «to» : List String
  cc : List String
  bcc : List String
  date : DateVal
  attachments : List Attachment
  read : Bool
  aiCategory : String
  indexedAt : DateVal
deriving DecidableEq, Repr

/-- The in-flight accumulator (`Partial<EmailDocument>` in the source):
fields filled in by the header handler, the body handler and the
attributes handler as the fragments stream in. -/
structure PendingEmail where
  id : String
  accountId : String
  folder : String
  read : Bool
  aiCategory : String
  indexedAt : DateVal
  subject : Option String
  body : Option String
  bodyHtml : Option String
  «from» : Option String
  «to» : Option (List String)
  cc : Option (List String)
  bcc : Option (List String)
  date : Option DateVal
  attachments : Option (List Attachment)
deriving DecidableEq, Repr

/-- Output of `Imap.parseHeader` restricted to the requested fields; a
missing header field is the empty list. -/
structure ParsedHeader where
  subject : List String
  «from» : List String
  «to» : List String
  cc : List String
  bcc : List String
  date : List String
deriving DecidableEq, Repr

/-- Attachment as reported by `simpleParser` (filename may be absent). -/
structure RawAttachment where
  filename : Option String
  contentType : String
  size : Nat
deriving DecidableEq, Repr

/-- Successful output of `simpleParser` on the body fragment. -/
structure ParsedMail where
  text : Option String
  html : Option String
  attachments : List RawAttachment
deriving DecidableEq, Repr

/-- JavaScript `x || d` on an optional string: `undefined` and the empty
string are falsy and select the default. -/
def jsOr (o : Option String) (d : String) : String :=
  match o with
  | some s => if s == "" then d else s
  | none => d

/-- JavaScript truthiness of an optional string field of the partial
record: present and non-empty. -/
def truthy (o : Option String) : Bool :=
  match o with
  | some s => !(s == "")
  | none => false

/-- The fresh `Partial<EmailDocument>` built for each message delivered
by a fetch (`id: uuidv4(), accountId, folder: 'INBOX', read: false,
aiCategory: 'Uncategorized', indexedAt: new Date()`). -/
def initEmail (uuid accountId : String) : PendingEmail :=
  { id := uuid
    accountId := accountId
    folder := "INBOX"
    read := false
    aiCategory := "Uncategorized"
    indexedAt := DateVal.now
    subject := none
    body := none
    bodyHtml := none
    «from» := none
    «to» := none
    cc := none
    bcc := none
    date := none
    attachments := none }

/-- The header-fragment handler: `Imap.parseHeader` output is written into
the partial record, with `'(No Subject)'` as the subject fallback, the
empty string as the sender fallback, empty recipient lists as fallback,
and the current time when the date header is absent or empty. -/
def onHeaderPart (e : PendingEmail) (h : ParsedHeader) : PendingEmail :=
  { e with
    subject := some (jsOr h.subject.head? "(No Subject)")
    «from» := some (jsOr h.«from».head? "")
    «to» := some h.«to»
    cc := some h.cc
    bcc := some h.bcc
    date := some (match h.date.head? with
      | some s => if s == "" then DateVal.now else DateVal.parsed s
      | none => DateVal.now) }

/-- The body-fragment handler: on a successful `simpleParser` run the
plain text (defaulted to the empty string), the HTML part (kept only when
truthy) and attachment metadata are recorded; on a parse failure the
error is logged and the raw buffer is stored as the body. Returns the
updated record together with the log lines produced. -/
def onBodyPart (e : PendingEmail) (buffer : String) (parsed : Option ParsedMail) :
    PendingEmail × List String :=
  match parsed with
  | some p =>
      ({ e with
          body := some (p.text.getD "")
          bodyHtml := (match p.html with
            | some h => if h == "" then none else some h
            | none => none)
          attachments := if p.attachments.length > 0 then
              some (p.attachments.map (fun att =>
                { filename := jsOr att.filename "unnamed"
                  contentType := att.contentType
                  size := att.size }))
            else e.attachments }, [])
  | none =>
      ({ e with body := some buffer }, ["Error parsing email body"])

/-- The attributes handler: the record identifier becomes
`accountId + '-' + uid` and the read flag is derived from the
`\\Seen` flag. -/
def onAttributes (e : PendingEmail) (accountId : String) (uid : Nat)
    (flags : List String) : PendingEmail :=
  { e with
    id := accountId ++ "-" ++ toString uid
    read := flags.contains "\\Seen" }

/-- The cast `email as EmailDocument` performed at emission time. -/
def finalizeEmail (e : PendingEmail) : EmailDocument :=
  { id := e.id
    accountId := e.accountId
    folder := e.folder
    subject := e.subject.getD ""
    body := e.body.getD ""
    bodyHtml := e.bodyHtml
    «from» := e.«from».getD ""
    «to» := e.«to».getD []
    cc := e.cc.getD []
    bcc := e.bcc.getD []
    date := e.date.getD DateVal.now
    attachments := e.attachments.getD []
    read := e.read
    aiCategory := e.aiCategory
    indexedAt := e.indexedAt }

/-- The message `end` handler: the record is emitted exactly when
`email.subject && email.body` is truthy. -/
def onEnd (e : PendingEmail) : Option EmailDocument :=
  if truthy e.subject && truthy e.body then some (finalizeEmail e) else none

/-- The raw data delivered for one fetched message: the parsed header,
the raw body buffer, the outcome of `simpleParser` on it (`none` models a
parse failure), the server-assigned UID, the flag list and the initial
`uuidv4()` value. -/
structure RawMessage where
  header : ParsedHeader
  bodyBuffer : String
  bodyParse : Option ParsedMail
  uid : Nat
  flags : List String
  uuid : String
deriving DecidableEq, Repr

/-- The partial record obtained after all fragment handlers of one
message have run (header part, body part, attributes). -/
def assembleMessage (accountId : String) (m : RawMessage) : PendingEmail × List String :=
  let e := initEmail m.uuid accountId
  let e := onHeaderPart e m.header
  let el := onBodyPart e m.bodyBuffer m.bodyParse
  (onAttributes el.1 accountId m.uid m.flags, el.2)

/-- Full per-message processing: fragment assembly followed by the
`end` handler's emission decision; also returns the log lines. -/
def processMessage (accountId : String) (m : RawMessage) :
    Option EmailDocument × List String :=
  let el := assembleMessage accountId m
  (onEnd el.1, el.2)

/-- Records emitted for a list of fetched messages, in arrival order;
dropped messages leave no trace in the output stream. -/
def emitMessages (accountId : String) (ms : List RawMessage) : List EmailDocument :=
  ms.filterMap (fun m => (processMessage accountId m).1)

/-- The batch size constant of `initialSync` (`const batchSize = 10`). -/
def batchSize : Nat := 10

/-- The batching loop of `initialSync`:
`for (let i = 0; i < results.length; i += batchSize)
   batches.push(results.slice(i, i + batchSize))`. -/
def sliceBatches (results : List Nat) (i : Nat) : List (List Nat) :=
  if i < results.length then
    (results.drop i).take batchSize :: sliceBatches results (i + batchSize)
  else
    []
termination_by results.length - i
decreasing_by simp only [batchSize]; omega

/-- The batches built by `initialSync` for a search result list. -/
def initialSyncBatches (results : List Nat) : List (List Nat) :=
  sliceBatches results 0

/-- Observable events of the sequential batch processing in
`initialSync`: a batch fetch being issued, and one message finishing
processing (with the emission outcome). -/
inductive SyncEv where
  | fetchStart : List Nat → SyncEv
  | msgProcessed : Nat → Bool → SyncEv
deriving DecidableEq, Repr

/-- Events produced while one batch is processed: the `imap.fetch` call
for the batch, then each message of the batch processed in order
(`processedCount` reaches `batch.length` only after every message's
`end` handler has run). `msgOf` maps a sequence number to the raw
message the server delivers for it. -/
def batchEvents (accountId : String) (msgOf : Nat → RawMessage) (b : List Nat) :
    List SyncEv :=
  SyncEv.fetchStart b ::
    b.map (fun n => SyncEv.msgProcessed n ((processMessage accountId (msgOf n)).1.isSome))

/-- Trace of `initialSync`'s sequential batch processing: batch `k + 1`
is fetched only from the recursive `processBatch(batchIndex + 1)` call
made once `processedCount === batch.length` for batch `k`. -/
def initialSyncTrace (accountId : String) (msgOf : Nat → RawMessage)
    (results : List Nat) : List SyncEv :=
  (initialSyncBatches results).flatMap (batchEvents accountId msgOf)

/-- Records emitted by `initialSync`, in batch order then within-batch
arrival order. -/
def initialSyncEmit (accountId : String) (msgOf : Nat → RawMessage)
    (results : List Nat) : List EmailDocument :=
  (initialSyncBatches results).flatMap
    (fun b => b.filterMap (fun n => (processMessage accountId (msgOf n)).1))

/-- The sequence range computed by `fetchNewEmails`:
`lastMessages = total - numNewMsgs + 1` and the fetch spans
`lastMessages:total`. -/
def fetchNewRange (total numNewMsgs : Nat) : Nat × Nat :=
  (total - numNewMsgs + 1, total)

/-- The sequence numbers `lo, lo+1, ..., hi` addressed by a
`lo:hi` fetch, in the ascending order the server walks them. -/
def seqList (lo hi : Nat) : List Nat :=
  (List.range (hi + 1 - lo)).map (fun k => lo + k)

/-- Records delivered by a notification-triggered fetch, each paired
with its sequence number, in server delivery order. -/
def newMailEmit (accountId : String) (msgOf : Nat → RawMessage) (lo hi : Nat) :
    List (Nat × EmailDocument) :=
  (seqList lo hi).filterMap
    (fun n => ((processMessage accountId (msgOf n)).1).map (fun r => (n, r)))

/-- Per-connection observable state of the idle supervisor: the
account's `connectionsActive` flag, the number of `'mail'` listeners
registered on the `imap` object, whether the connection is idling, and
whether a watchdog timer for the account is armed (present in
`watchdogTimers`). -/
structure ConnState where
  active : Bool
  mailHandlers : Nat
  idling : Bool
  watchdogArmed : Bool
deriving DecidableEq, Repr

/-- A freshly connected, ready connection: active, no `'mail'` listener
yet, not idling, no watchdog armed. -/
def readyConn : ConnState :=
  { active := true, mailHandlers := 0, idling := false, watchdogArmed := false }

/-- `startIdleMode`: registers a new `'mail'` listener via
`imap.on('mail', ...)`, then `restartIdle()` — when the account is
active — calls `imap.idle()` and arms a watchdog timer stored in
`watchdogTimers`. -/
def startIdleMode (s : ConnState) : ConnState :=
  let s := { s with mailHandlers := s.mailHandlers + 1 }
  if s.active then { s with idling := true, watchdogArmed := true } else s

/-- The synchronous prefix of `fetchNewEmails`: `imap.idle(false)` exits
idle; with the mailbox open the sequence range is computed and the fetch
is issued (`some range`), otherwise idle mode is restarted immediately
(`none`). The entry in `watchdogTimers` is not touched on this path. -/
def fetchNewEmailsEnter (boxOpen : Bool) (total numNewMsgs : Nat) (s : ConnState) :
    ConnState × Option (Nat × Nat) :=
  let s := { s with idling := false }
  if boxOpen then (s, some (fetchNewRange total numNewMsgs))
  else (startIdleMode s, none)

/-- One complete notification-triggered cycle: the `'mail'` handler runs
`fetchNewEmails`, and the fetch's `end` handler calls
`startIdleMode` again. -/
def notificationCycle (total numNewMsgs : Nat) (s : ConnState) : ConnState :=
  startIdleMode (fetchNewEmailsEnter true total numNewMsgs s).1

/-- Number of `fetchNewEmails` invocations one `'mail'` notification
triggers: every registered `'mail'` listener runs it once. -/
def fetchesPerNotification (s : ConnState) : Nat :=
  s.mailHandlers

/-- `cleanupConnection` viewed from one connection: the active flag is
set to `false` and the account's watchdog timer is cleared and removed. -/
def cleanupConn (s : ConnState) : ConnState :=
  { s with active := false, watchdogArmed := false }

/-- Association-map update with `Map.set` semantics: one entry per key. -/
def setFlag (m : List (String × Bool)) (k : String) (v : Bool) :
    List (String × Bool) :=
  (k, v) :: m.filter (fun p => p.1 != k)

/-- Association-map lookup with `Map.get` semantics. -/
def getFlag (m : List (String × Bool)) (k : String) : Option Bool :=
  (m.find? (fun p => p.1 == k)).map (fun p => p.2)

/-- Manager-level state of `ImapSyncService`: the immutable account
configurations (identified by their `user` key and never mutated), the
keys of the `accounts`, `connectionsActive` and `watchdogTimers` maps,
the reconnect timeouts currently scheduled via `setTimeout` (account and
delay in milliseconds), and the `connectAccount` calls performed so
far. -/
structure MgrState where
  accountConfigs : List String
  accounts : List String
  connectionsActive : List (String × Bool)
  watchdogTimers : List String
  reconnectsScheduled : List (String × Nat)
  connects : List String
deriving DecidableEq, Repr

/-- `cleanupConnection`: sets the account's active flag to `false`, then
clears and removes its watchdog timer if present. -/
def cleanupConnection (a : String) (s : MgrState) : MgrState :=
  { s with
    connectionsActive := setFlag s.connectionsActive a false
    watchdogTimers := s.watchdogTimers.filter (fun k => k != a) }

/-- `onImapError`: logs, cleans up the connection, then unconditionally
schedules a reconnect attempt 30 seconds later. -/
def onImapError (a : String) (s : MgrState) : MgrState :=
  let s := cleanupConnection a s
  { s with reconnectsScheduled := s.reconnectsScheduled ++ [(a, 30000)] }

/-- `onImapEnd`: logs, cleans up the connection, then — only if the
account's `connectionsActive` flag still reads `true` and a matching
config exists — schedules a reconnect 5 seconds later. -/
def onImapEnd (a : String) (s : MgrState) : MgrState :=
  let s := cleanupConnection a s
  if getFlag s.connectionsActive a == some true then
    if s.accountConfigs.contains a then
      { s with reconnectsScheduled := s.reconnectsScheduled ++ [(a, 5000)] }
    else s
  else s

/-- A scheduled reconnect timeout for `onImapError` firing: the callback
looks the config up in `accountConfigs` and, when found, calls
`connectAccount`, which records the connection in `accounts`. -/
def fireReconnect (a : String) (s : MgrState) : MgrState :=
  if s.accountConfigs.contains a then
    { s with
      connects := s.connects ++ [a]
      accounts := a :: s.accounts.filter (fun k => k != a) }
  else s

/-- `stopSync`: for every entry of `accounts`, sets the active flag to
`false`, clears the watchdog timer and ends the connection; then clears
the `accounts`, `connectionsActive` and `watchdogTimers` maps.
`accountConfigs` and any already-scheduled reconnect timeouts are left
untouched. -/
def stopSync (s : MgrState) : MgrState :=
  { s with
    accounts := []
    connectionsActive := []
    watchdogTimers := [] }

/-- A sample parsed header with all requested fields present. -/
def sampleHeader : ParsedHeader :=
  { subject := ["Greetings"]
    «from» := ["alice@example.com"]
    «to» := ["bob@example.com"]
    cc := []
    bcc := []
    date := ["Mon, 1 Jan 2024 10:00:00 +0000"] }

/-- A sample successful body parse with non-empty plain text. -/
def sampleParsedMail : ParsedMail :=
  { text := some "hello world", html := none, attachments := [] }

/-- A sample raw message that satisfies the emission condition. -/
def sampleMessage : RawMessage :=
  { header := sampleHeader
    bodyBuffer := "raw"
    bodyParse := some sampleParsedMail
    uid := 7
    flags := ["\\Seen"]
    uuid := "uuid-0" }

/-- The canonical record produced for `sampleMessage` on account
`acct`. -/
def sampleRecord : EmailDocument :=
  finalizeEmail (assembleMessage "acct" sampleMessage).1

/-- A sample raw message whose parsed header has no subject field. -/
def sampleNoSubject : RawMessage :=
  { header := { sampleHeader with subject := [] }
    bodyBuffer := "raw"
    bodyParse := some sampleParsedMail
    uid := 8
    flags := []
    uuid := "uuid-2" }

/-- A sample raw message whose body fails to parse, with a non-empty raw
buffer. -/
def parseFailMsg : RawMessage :=
  { header := sampleHeader
    bodyBuffer := "unparseable body bytes"
    bodyParse := none
    uid := 9
    flags := []
    uuid := "uuid-1" }

/-- A sample search result list of 23 sequence identifiers. -/
def sampleResults : List Nat :=
  (List.range 23).map (fun k => k + 1)

/-- A manager state with one configured, connected, active account. -/
def runningMgr : MgrState :=
  { accountConfigs := ["alice"]
    accounts := ["alice"]
    connectionsActive := [("alice", true)]
    watchdogTimers := ["alice"]
    reconnectsScheduled := []
    connects := [] }

/-! ### Helper lemmas about the message pipeline -/

/-- The body handler never touches the record identifier. -/
theorem onBodyPart_id (e : PendingEmail) (b : String) (p : Option ParsedMail) :
    (onBodyPart e b p).1.id = e.id := by
  cases p <;> rfl

/-- The body handler never touches the subject. -/
theorem onBodyPart_subject (e : PendingEmail) (b : String) (p : Option ParsedMail) :
    (onBodyPart e b p).1.subject = e.subject := by
  cases p <;> rfl

/-- The emission component of `processMessage` is the `end` handler
applied to the assembled record. -/
theorem processMessage_fst (accountId : String) (m : RawMessage) :
    (processMessage accountId m).1 = onEnd (assembleMessage accountId m).1 := rfl

/-- The `end` handler emits exactly when both truthiness checks pass. -/
theorem onEnd_isSome (e : PendingEmail) :
    (onEnd e).isSome = (truthy e.subject && truthy e.body) := by
  unfold onEnd
  split <;> simp_all

/-- The assembled subject is the header subject under the
`'(No Subject)'` fallback. -/
theorem assembleMessage_subject (accountId : String) (m : RawMessage) :
    (assembleMessage accountId m).1.subject =
      some (jsOr m.header.subject.head? "(No Subject)") := by
  show (onBodyPart (onHeaderPart (initEmail m.uuid accountId) m.header)
      m.bodyBuffer m.bodyParse).1.subject = _
  rw [onBodyPart_subject]
  rfl

/-- A `jsOr` result with a non-empty default is always truthy. -/
theorem truthy_jsOr (o : Option String) (d : String) (hd : d ≠ "") :
    truthy (some (jsOr o d)) = true := by
  cases o with
  | none => simp [jsOr, truthy, hd]
  | some s =>
      by_cases hs : s = ""
      · simp [jsOr, truthy, hs, hd]
      · simp [jsOr, truthy, hs]

/-- After header processing the subject field is always truthy: the
`'(No Subject)'` fallback is itself non-empty. -/
theorem assembleMessage_subject_truthy (accountId : String) (m : RawMessage) :
    truthy (assembleMessage accountId m).1.subject = true := by
  rw [assembleMessage_subject]
  exact truthy_jsOr _ _ (by decide)

/-- With a successful body parse, the assembled body is the parsed plain
text defaulted to the empty string. -/
theorem assembleMessage_body_some (accountId : String) (m : RawMessage) (p : ParsedMail)
    (hp : m.bodyParse = some p) :
    (assembleMessage accountId m).1.body = some (p.text.getD "") := by
  show (onBodyPart (onHeaderPart (initEmail m.uuid accountId) m.header)
      m.bodyBuffer m.bodyParse).1.body = _
  rw [hp]
  rfl

/-- With a failed body parse, the assembled body is the raw buffer. -/
theorem assembleMessage_body_none (accountId : String) (m : RawMessage)
    (hp : m.bodyParse = none) :
    (assembleMessage accountId m).1.body = some m.bodyBuffer := by
  show (onBodyPart (onHeaderPart (initEmail m.uuid accountId) m.header)
      m.bodyBuffer m.bodyParse).1.body = _
  rw [hp]
  rfl

/-- Every emitted record's identifier is `accountId + '-' + uid`. -/
theorem processMessage_id (accountId : String) (m : RawMessage) (r : EmailDocument)
    (h : (processMessage accountId m).1 = some r) :
    r.id = accountId ++ "-" ++ toString m.uid := by
  rw [processMessage_fst] at h
  unfold onEnd at h
  split at h
  · cases h
    rfl
  · exact Option.noConfusion h

/-! ### Helper lemmas about the batching loop -/

/-- The batching loop yields no batch exactly when the start index is
past the end of the result list. -/
theorem sliceBatches_eq_nil_iff (results : List Nat) (i : Nat) :
    sliceBatches results i = [] ↔ results.length ≤ i := by
  rw [sliceBatches]
  split
  · next h => simp; omega
  · next h => simp; omega

/-- Concatenating the batches recovers the unbatched suffix: the loop
partitions the identifiers contiguously and in order. -/
theorem sliceBatches_flatten (results : List Nat) :
    ∀ (n i : Nat), results.length - i ≤ n →
      (sliceBatches results i).flatten = results.drop i := by
  intro n
  induction n with
  | zero =>
      intro i hi
      rw [sliceBatches]
      split
      · next h => omega
      · next h =>
          simp only [List.flatten_nil]
          symm
          rw [List.drop_eq_nil_iff]
          omega
  | succ n ih =>
      intro i hi
      rw [sliceBatches]
      split
      · next h =>
          rw [List.flatten_cons, ih (i + batchSize) (by simp [batchSize]; omega)]
          simp only [batchSize]
          rw [← List.drop_drop]
          exact List.take_append_drop 10 (results.drop i)
      · next h =>
          simp only [List.flatten_nil]
          symm
          rw [List.drop_eq_nil_iff]
          omega

/-- The loop produces `ceil((length - i) / 10)` batches. -/
theorem sliceBatches_length (results : List Nat) :
    ∀ (n i : Nat), results.length - i ≤ n →
      (sliceBatches results i).length = (results.length - i + 9) / 10 := by
  intro n
  induction n with
  | zero =>
      intro i hi
      rw [sliceBatches]
      split
      · next h => omega
      · next h => simp; omega
  | succ n ih =>
      intro i hi
      rw [sliceBatches]
      split
      · next h =>
          rw [List.length_cons, ih (i + batchSize) (by simp [batchSize]; omega)]
          simp only [batchSize]
          omega
      · next h => simp; omega

/-- Every batch the loop produces has between 1 and 10 identifiers. -/
theorem sliceBatches_mem_length (results : List Nat) :
    ∀ (n i : Nat), results.length - i ≤ n →
      ∀ b ∈ sliceBatches results i, 1 ≤ b.length ∧ b.length ≤ 10 := by
  intro n
  induction n with
  | zero =>
      intro i hi b hb
      rw [sliceBatches] at hb
      split at hb
      · next h => omega
      · next h => simp at hb
  | succ n ih =>
      intro i hi b hb
      rw [sliceBatches] at hb
      split at hb
      · next h =>
          rcases List.mem_cons.mp hb with rfl | hb2
          · rw [List.length_take, List.length_drop]
            simp only [batchSize]
            omega
          · exact ih (i + batchSize) (by simp [batchSize]; omega) b hb2
      · next h => simp at hb

/-- Every batch except possibly the last has exactly 10 identifiers. -/
theorem sliceBatches_dropLast_length (results : List Nat) :
    ∀ (n i : Nat), results.length - i ≤ n →
      ∀ b ∈ (sliceBatches results i).dropLast, b.length = 10 := by
  intro n
  induction n with
  | zero =>
      intro i hi b hb
      rw [sliceBatches] at hb
      split at hb
      · next h => omega
      · next h => simp at hb
  | succ n ih =>
      intro i hi b hb
      rw [sliceBatches] at hb
      split at hb
      · next h =>
          cases htail : sliceBatches results (i + batchSize) with
          | nil => rw [htail] at hb; simp at hb
          | cons c cs =>
              rw [htail, List.dropLast_cons₂] at hb
              rcases List.mem_cons.mp hb with rfl | hb2
              · have hlt : ¬ results.length ≤ i + batchSize := by
                  intro hle
                  have hnil := (sliceBatches_eq_nil_iff results (i + batchSize)).mpr hle
                  rw [htail] at hnil
                  exact List.noConfusion hnil
                rw [List.length_take, List.length_drop]
                simp only [batchSize] at hlt ⊢
                omega
              · rw [← htail] at hb2
                exact ih (i + batchSize) (by simp [batchSize]; omega) b hb2
      · next h => simp at hb

/-- An element reported by `getLast?` is a member of the list. -/
theorem mem_of_getLast? {α : Type} {l : List α} {b : α}
    (h : l.getLast? = some b) : b ∈ l := by
  rcases List.mem_getLast?_eq_getLast (Option.mem_def.mpr h) with ⟨hne, rfl⟩
  exact List.getLast_mem hne

/-- Filtering-and-mapping over a flattened list equals running it batch
by batch in order. -/
theorem filterMap_flatten {α β : Type} (f : α → Option β) (bs : List (List α)) :
    bs.flatten.filterMap f = bs.flatMap (fun b => b.filterMap f) := by
  induction bs with
  | nil => rfl
  | cons b bs ih =>
      rw [List.flatten_cons, List.filterMap_append, List.flatMap_cons, ih]

/-! ### Helper lemmas about the lifecycle manager state -/

/-- Reading a key just written with `Map.set` semantics returns the
written value. -/
theorem getFlag_setFlag (m : List (String × Bool)) (k : String) (v : Bool) :
    getFlag (setFlag m k v) k = some v := by
  unfold getFlag setFlag
  rw [List.find?_cons_of_pos _ (by simp)]
  rfl

/-- Because `cleanupConnection` sets the active flag to `false` before
`onImapEnd` reads it, the reconnect branch of `onImapEnd` is
unreachable: the handler reduces to the cleanup alone. -/
theorem onImapEnd_eq_cleanup (a : String) (s : MgrState) :
    onImapEnd a s = cleanupConnection a s := by
  have hflag : getFlag (cleanupConnection a s).connectionsActive a = some false :=
    getFlag_setFlag s.connectionsActive a false
  simp [onImapEnd, hflag]

/-! ### Claim theorems -/

/-- C1: on a new-mail notification of `numNew` messages when the mailbox
total after the notification is `total` (`1 ≤ numNew ≤ total`), the
supervisor exits idle, the computed fetch range is
`[total - numNew + 1, total]`, that range holds exactly `numNew`
consecutive sequence numbers (its members are exactly the `n` with
`total - numNew + 1 ≤ n ≤ total`), and the records of the
notification-triggered fetch are emitted in strictly ascending
sequence-number order. -/
theorem fetchNewEmails_range (total numNew : Nat) (h1 : 1 ≤ numNew)
    (h2 : numNew ≤ total) (accountId : String) (msgOf : Nat → RawMessage)
    (s : ConnState) :
    (fetchNewEmailsEnter true total numNew s).1.idling = false ∧
    (fetchNewEmailsEnter true total numNew s).2 = some (total - numNew + 1, total) ∧
    (seqList (total - numNew + 1) total).length = numNew ∧
    (∀ n, n ∈ seqList (total - numNew + 1) total ↔
      total - numNew + 1 ≤ n ∧ n ≤ total) ∧
    List.Pairwise (fun p q => p.1 < q.1)
      (newMailEmit accountId msgOf (total - numNew + 1) total) := by
  refine ⟨rfl, rfl, ?_, ?_, ?_⟩
  · simp only [seqList, List.length_map, List.length_range]
    omega
  · intro n
    simp only [seqList, List.mem_map, List.mem_range]
    constructor
    · rintro ⟨k, hk, rfl⟩
      omega
    · rintro ⟨ha, hb⟩
      exact ⟨n - (total - numNew + 1), by omega, by omega⟩
  · have hp : List.Pairwise (fun a b => a < b) (seqList (total - numNew + 1) total) := by
      unfold seqList
      exact (List.pairwise_map).mpr ((List.pairwise_lt_range _).imp (fun hab => by omega))
    unfold newMailEmit
    refine List.pairwise_filterMap.mpr (hp.imp ?_)
    intro a b hab x hx y hy
    rw [Option.mem_def, Option.map_eq_some'] at hx hy
    rcases hx with ⟨r1, _, rfl⟩
    rcases hy with ⟨r2, _, rfl⟩
    simpa using hab

/-- C1 witness: total 13, 3 new messages, fetch range `[11, 13]`. -/
theorem fetchNewEmails_range_witness :
    1 ≤ 3 ∧ 3 ≤ 13 ∧
    ((fetchNewEmailsEnter true 13 3 readyConn).1.idling = false ∧
     (fetchNewEmailsEnter true 13 3 readyConn).2 = some (13 - 3 + 1, 13) ∧
     (seqList (13 - 3 + 1) 13).length = 3 ∧
     (∀ n, n ∈ seqList (13 - 3 + 1) 13 ↔ 13 - 3 + 1 ≤ n ∧ n ≤ 13) ∧
     List.Pairwise (fun p q => p.1 < q.1)
       (newMailEmit "acct" (fun _ => sampleMessage) (13 - 3 + 1) 13)) :=
  ⟨by decide, by decide,
    fetchNewEmails_range 13 3 (by decide) (by decide) "acct"
      (fun _ => sampleMessage) readyConn⟩

/-- C2: every emitted canonical record's identifier is the deterministic
function `accountId ++ "-" ++ uid` of the account identifier and the
server-assigned message number, so refetching the same physical message
(same account and uid, with any header/body delivery and any fresh
uuid) always yields the identical identifier. -/
theorem emitted_id_deterministic (accountId : String) (m : RawMessage)
    (r : EmailDocument) (h : (processMessage accountId m).1 = some r) :
    r.id = accountId ++ "-" ++ toString m.uid ∧
    ∀ m2 r2, m2.uid = m.uid → (processMessage accountId m2).1 = some r2 →
      r2.id = r.id := by
  refine ⟨processMessage_id accountId m r h, ?_⟩
  intro m2 r2 hu h2
  rw [processMessage_id accountId m2 r2 h2, processMessage_id accountId m r h, hu]

/-- C2 witness: the sample message on account `acct` is emitted, with
identifier determined by account and uid. -/
theorem emitted_id_deterministic_witness :
    (processMessage "acct" sampleMessage).1 = some sampleRecord ∧
    (sampleRecord.id = "acct" ++ "-" ++ toString sampleMessage.uid ∧
     ∀ m2 r2, m2.uid = sampleMessage.uid →
       (processMessage "acct" m2).1 = some r2 → r2.id = sampleRecord.id) :=
  ⟨by decide, emitted_id_deterministic "acct" sampleMessage sampleRecord (by decide)⟩

/-- C3: a fetched message is emitted iff, when its processing ends, the
record's subject and body fields are both present and non-empty (the
JavaScript truthiness of `email.subject && email.body`); in particular a
message whose body parses to empty text is dropped even when its subject
is present. -/
theorem emit_iff_subject_body (accountId : String) (m : RawMessage) :
    ((processMessage accountId m).1.isSome = true ↔
      (truthy (assembleMessage accountId m).1.subject = true ∧
       truthy (assembleMessage accountId m).1.body = true)) ∧
    (∀ p, m.bodyParse = some p → p.text.getD "" = "" →
      (processMessage accountId m).1 = none) := by
  constructor
  · rw [processMessage_fst, onEnd_isSome, Bool.and_eq_true]
  · intro p hp ht
    rw [processMessage_fst]
    unfold onEnd
    rw [assembleMessage_body_some accountId m p hp, ht]
    simp [truthy]

/-- C3 witness: the emission rule instantiated at the sample message. -/
theorem emit_iff_subject_body_witness :
    ((processMessage "acct" sampleMessage).1.isSome = true ↔
      (truthy (assembleMessage "acct" sampleMessage).1.subject = true ∧
       truthy (assembleMessage "acct" sampleMessage).1.body = true)) ∧
    (∀ p, sampleMessage.bodyParse = some p → p.text.getD "" = "" →
      (processMessage "acct" sampleMessage).1 = none) :=
  emit_iff_subject_body "acct" sampleMessage

/-- C4 counterexample: after `stopSync` has returned on a manager with
one configured account, an `error` event delivered on the closed
connection still schedules a reconnect, and when its timeout fires
`connectAccount` is invoked — a connect is initiated after `stop()`,
contradicting the claim that no reconnection attempt is ever made. -/
theorem reconnect_after_stop_counterexample :
    (fireReconnect "alice" (onImapError "alice" (stopSync runningMgr))).connects =
      ["alice"] := by
  decide

/-- C4 (amended): after `stopSync` returns, a connection `end` event
never schedules a reconnection and never initiates a connect; an
`error` event, however, still schedules a 30-second reconnect whose
firing reconnects the account, because `onImapError` does not consult
the active flag. -/
theorem stop_reconnect_policy (s : MgrState) (a : String)
    (ha : s.accountConfigs.contains a = true) :
    (onImapEnd a (stopSync s)).reconnectsScheduled =
      (stopSync s).reconnectsScheduled ∧
    (onImapEnd a (stopSync s)).connects = (stopSync s).connects ∧
    (onImapError a (stopSync s)).reconnectsScheduled =
      (stopSync s).reconnectsScheduled ++ [(a, 30000)] ∧
    (fireReconnect a (onImapError a (stopSync s))).connects = s.connects ++ [a] := by
  refine ⟨?_, ?_, rfl, ?_⟩
  · rw [onImapEnd_eq_cleanup]
    rfl
  · rw [onImapEnd_eq_cleanup]
    rfl
  · simp only [List.contains_eq_any_beq, List.any_eq_true, beq_iff_eq] at ha
    rcases ha with ⟨x, hx, rfl⟩
    simp [fireReconnect, onImapError, cleanupConnection, stopSync, hx]

/-- C4 witness: the amended reconnect policy at the one-account
manager. -/
theorem stop_reconnect_policy_witness :
    runningMgr.accountConfigs.contains "alice" = true ∧
    ((onImapEnd "alice" (stopSync runningMgr)).reconnectsScheduled =
       (stopSync runningMgr).reconnectsScheduled ∧
     (onImapEnd "alice" (stopSync runningMgr)).connects =
       (stopSync runningMgr).connects ∧
     (onImapError "alice" (stopSync runningMgr)).reconnectsScheduled =
       (stopSync runningMgr).reconnectsScheduled ++ [("alice", 30000)] ∧
     (fireReconnect "alice" (onImapError "alice" (stopSync runningMgr))).connects =
       runningMgr.connects ++ ["alice"]) :=
  ⟨by decide, stop_reconnect_policy runningMgr "alice" (by decide)⟩

/-- C5: contrary to the claim that re-entering idle does not increase
the number of registered `mail` handlers, `startIdleMode` registers a
fresh `'mail'` listener on every invocation, and a notification-triggered
fetch cycle re-invokes it: after the first cycle two listeners are
registered (not one), so the next notification triggers `fetchNewEmails`
twice; in general every cycle adds one listener. -/
theorem mail_handler_count_grows :
    fetchesPerNotification (startIdleMode readyConn) = 1 ∧
    fetchesPerNotification (notificationCycle 13 3 (startIdleMode readyConn)) = 2 ∧
    ∀ s : ConnState, (notificationCycle 13 3 s).mailHandlers = s.mailHandlers + 1 := by
  refine ⟨by decide, by decide, ?_⟩
  intro s
  show (startIdleMode { s with idling := false }).mailHandlers = s.mailHandlers + 1
  simp only [startIdleMode]
  split <;> rfl

/-- C6 counterexample: entering idle arms the watchdog, and the
transition out of idle into a notification-triggered fetch leaves the
watchdog armed — it is not cancelled before the fetch begins,
contradicting the cancellation-on-every-idle-exit part of the claim. -/
theorem watchdog_not_cancelled_counterexample :
    (startIdleMode readyConn).watchdogArmed = true ∧
    ((fetchNewEmailsEnter true 13 3 (startIdleMode readyConn)).1).watchdogArmed =
      true := by
  decide

/-- C6 (amended): a watchdog timer is armed on every idle entry of an
active connection; it is cancelled by connection cleanup (the error/end
path) and by engine stop; but exiting idle for a notification-triggered
fetch leaves the account's watchdog entry untouched — the timer stays
armed during the fetch. -/
theorem watchdog_lifecycle (s : ConnState) (hs : s.active = true) :
    (startIdleMode s).watchdogArmed = true ∧
    (∀ total numNew,
      ((fetchNewEmailsEnter true total numNew s).1).watchdogArmed =
        s.watchdogArmed) ∧
    (cleanupConn s).watchdogArmed = false ∧
    (∀ (ms : MgrState) (a : String),
      (cleanupConnection a ms).watchdogTimers.contains a = false ∧
      (stopSync ms).watchdogTimers = []) := by
  refine ⟨?_, fun total numNew => rfl, rfl, ?_⟩
  · simp [startIdleMode, hs]
  · intro ms a
    refine ⟨?_, rfl⟩
    simp [cleanupConnection, List.contains_eq_any_beq]

/-- C6 witness: the amended watchdog lifecycle at a fresh ready
connection. -/
theorem watchdog_lifecycle_witness :
    readyConn.active = true ∧
    ((startIdleMode readyConn).watchdogArmed = true ∧
     (∀ total numNew,
       ((fetchNewEmailsEnter true total numNew readyConn).1).watchdogArmed =
         readyConn.watchdogArmed) ∧
     (cleanupConn readyConn).watchdogArmed = false ∧
     (∀ (ms : MgrState) (a : String),
       (cleanupConnection a ms).watchdogTimers.contains a = false ∧
       (stopSync ms).watchdogTimers = [])) :=
  ⟨by decide, watchdog_lifecycle readyConn (by decide)⟩

/-- C7 counterexample: a message whose body fails to parse is not
dropped — with a non-empty raw buffer it is emitted with the raw buffer
as its body, contradicting the claim that every parse-failed message is
dropped and never emitted. -/
theorem parse_failure_emitted_counterexample :
    (processMessage "acct" parseFailMsg).1.isSome = true ∧
    (processMessage "acct" parseFailMsg).2 = ["Error parsing email body"] := by
  decide

/-- C7 (amended): when a message's body fails to parse, the failure is
logged and the raw buffer is stored as the body; the message is emitted
(with the raw buffer as its body) exactly when the buffer is non-empty,
and dropped only when the buffer is empty; the failure does not abort
the enclosing batch — the surrounding messages are processed
unchanged. -/
theorem parse_failure_fallback (accountId : String) (m : RawMessage)
    (hp : m.bodyParse = none) :
    (processMessage accountId m).2 = ["Error parsing email body"] ∧
    (assembleMessage accountId m).1.body = some m.bodyBuffer ∧
    (processMessage accountId m).1.isSome = !(m.bodyBuffer == "") ∧
    (∀ r, (processMessage accountId m).1 = some r → r.body = m.bodyBuffer) ∧
    (∀ pre post : List RawMessage,
      emitMessages accountId (pre ++ [m] ++ post) =
        emitMessages accountId pre ++ emitMessages accountId [m] ++
          emitMessages accountId post) := by
  have hbody := assembleMessage_body_none accountId m hp
  refine ⟨?_, hbody, ?_, ?_, ?_⟩
  · show (assembleMessage accountId m).2 = _
    show (onBodyPart (onHeaderPart (initEmail m.uuid accountId) m.header)
        m.bodyBuffer m.bodyParse).2 = _
    rw [hp]
    rfl
  · rw [processMessage_fst, onEnd_isSome, hbody, assembleMessage_subject_truthy]
    simp [truthy]
  · intro r h
    rw [processMessage_fst] at h
    unfold onEnd at h
    split at h
    · cases h
      show (assembleMessage accountId m).1.body.getD "" = m.bodyBuffer
      rw [hbody]
      rfl
    · exact Option.noConfusion h
  · intro pre post
    unfold emitMessages
    rw [List.filterMap_append, List.filterMap_append]

/-- C7 witness: the amended fallback behavior at the sample
parse-failing message. -/
theorem parse_failure_fallback_witness :
    parseFailMsg.bodyParse = none ∧
    ((processMessage "acct" parseFailMsg).2 = ["Error parsing email body"] ∧
     (assembleMessage "acct" parseFailMsg).1.body = some parseFailMsg.bodyBuffer ∧
     (processMessage "acct" parseFailMsg).1.isSome =
       !(parseFailMsg.bodyBuffer == "") ∧
     (∀ r, (processMessage "acct" parseFailMsg).1 = some r →
       r.body = parseFailMsg.bodyBuffer) ∧
     (∀ pre post : List RawMessage,
       emitMessages "acct" (pre ++ [parseFailMsg] ++ post) =
         emitMessages "acct" pre ++ emitMessages "acct" [parseFailMsg] ++
           emitMessages "acct" post)) :=
  ⟨by decide, parse_failure_fallback "acct" parseFailMsg (by decide)⟩

/-- C8: contrary to the claim that a clean connection `end` on a
non-stopped account schedules a 5-second reconnect, `onImapEnd` never
schedules any reconnection — `cleanupConnection` sets the active flag to
`false` before `onImapEnd` reads it, so the 5-second branch is dead
code — while a protocol error always schedules a 30-second reconnect. -/
theorem end_event_never_schedules_reconnect (s : MgrState) (a : String) :
    (onImapEnd a s).reconnectsScheduled = s.reconnectsScheduled ∧
    (onImapEnd a s).connects = s.connects ∧
    (onImapError a s).reconnectsScheduled =
      s.reconnectsScheduled ++ [(a, 30000)] := by
  refine ⟨?_, ?_, rfl⟩
  · rw [onImapEnd_eq_cleanup]
    rfl
  · rw [onImapEnd_eq_cleanup]
    rfl

/-- C9: an initial-sync search returning at least one identifier is
split in order into `ceil(n/10)` contiguous batches — every batch except
possibly the last has exactly 10 identifiers, the last between 1 and
10 — whose concatenation is the original list; the sequential emission
over batches equals the in-order emission over the whole list; and in
the processing trace the fetch of each batch starts only after every
message of the preceding batch has been processed. -/
theorem initialSync_batching (results : List Nat) (h : 1 ≤ results.length)
    (accountId : String) (msgOf : Nat → RawMessage) :
    (initialSyncBatches results).length = (results.length + 9) / 10 ∧
    (initialSyncBatches results).flatten = results ∧
    (∀ b ∈ (initialSyncBatches results).dropLast, b.length = 10) ∧
    (∀ b, (initialSyncBatches results).getLast? = some b →
      1 ≤ b.length ∧ b.length ≤ 10) ∧
    initialSyncEmit accountId msgOf results =
      results.filterMap (fun n => (processMessage accountId (msgOf n)).1) ∧
    (∀ pre b1 b2 post, initialSyncBatches results = pre ++ b1 :: b2 :: post →
      ∃ t1 t2, initialSyncTrace accountId msgOf results =
        t1 ++ SyncEv.fetchStart b2 :: t2 ∧
        ∀ n ∈ b1,
          SyncEv.msgProcessed n ((processMessage accountId (msgOf n)).1.isSome)
            ∈ t1) := by
  have hflat : (initialSyncBatches results).flatten = results :=
    sliceBatches_flatten results results.length 0 (by omega)
  refine ⟨?_, hflat, ?_, ?_, ?_, ?_⟩
  · have := sliceBatches_length results results.length 0 (by omega)
    rw [initialSyncBatches, this]
    omega
  · exact sliceBatches_dropLast_length results results.length 0 (by omega)
  · intro b hb
    exact sliceBatches_mem_length results results.length 0 (by omega) b
      (mem_of_getLast? hb)
  · unfold initialSyncEmit
    rw [← filterMap_flatten, hflat]
  · intro pre b1 b2 post hb
    refine ⟨pre.flatMap (batchEvents accountId msgOf) ++
        batchEvents accountId msgOf b1,
      (b2.map fun n =>
        SyncEv.msgProcessed n ((processMessage accountId (msgOf n)).1.isSome)) ++
        post.flatMap (batchEvents accountId msgOf), ?_, ?_⟩
    · unfold initialSyncTrace
      rw [hb]
      simp [List.flatMap_append, List.flatMap_cons, batchEvents, List.append_assoc]
    · intro n hn
      apply List.mem_append_right
      unfold batchEvents
      exact List.mem_cons_of_mem _ (List.mem_map_of_mem _ hn)

/-- C9 witness: 23 search results split into batches of 10, 10 and 3. -/
theorem initialSync_batching_witness :
    1 ≤ sampleResults.length ∧
    ((initialSyncBatches sampleResults).length = (sampleResults.length + 9) / 10 ∧
     (initialSyncBatches sampleResults).flatten = sampleResults ∧
     (∀ b ∈ (initialSyncBatches sampleResults).dropLast, b.length = 10) ∧
     (∀ b, (initialSyncBatches sampleResults).getLast? = some b →
       1 ≤ b.length ∧ b.length ≤ 10) ∧
     initialSyncEmit "acct" (fun _ => sampleMessage) sampleResults =
       sampleResults.filterMap
         (fun n => (processMessage "acct" ((fun _ => sampleMessage) n)).1) ∧
     (∀ pre b1 b2 post,
       initialSyncBatches sampleResults = pre ++ b1 :: b2 :: post →
       ∃ t1 t2, initialSyncTrace "acct" (fun _ => sampleMessage) sampleResults =
         t1 ++ SyncEv.fetchStart b2 :: t2 ∧
         ∀ n ∈ b1,
           SyncEv.msgProcessed n
             ((processMessage "acct" ((fun _ => sampleMessage) n)).1.isSome)
             ∈ t1)) :=
  ⟨by decide,
    initialSync_batching sampleResults (by decide) "acct" (fun _ => sampleMessage)⟩

/-- C10: a fetched message whose parsed header has no subject field is
normalized with the fixed placeholder subject `'(No Subject)'`, both in
the assembled record and in the emitted canonical record. -/
theorem missing_subject_placeholder (accountId : String) (m : RawMessage)
    (hs : m.header.subject = []) :
    (assembleMessage accountId m).1.subject = some "(No Subject)" ∧
    ∀ r, (processMessage accountId m).1 = some r →
      r.subject = "(No Subject)" := by
  have hasm : (assembleMessage accountId m).1.subject = some "(No Subject)" := by
    rw [assembleMessage_subject, hs]
    rfl
  refine ⟨hasm, ?_⟩
  intro r h
  rw [processMessage_fst] at h
  unfold onEnd at h
  split at h
  · cases h
    show (assembleMessage accountId m).1.subject.getD "" = "(No Subject)"
    rw [hasm]
    rfl
  · exact Option.noConfusion h

/-- C10 witness: the placeholder subject at the sample subject-less
message. -/
theorem missing_subject_placeholder_witness :
    sampleNoSubject.header.subject = [] ∧
    ((assembleMessage "acct" sampleNoSubject).1.subject = some "(No Subject)" ∧
     ∀ r, (processMessage "acct" sampleNoSubject).1 = some r →
       r.subject = "(No Subject)") :=
  ⟨by decide, missing_subject_placeholder "acct" sampleNoSubject (by decide)⟩

end ImapSync

